import Mathlib

/-!
Verification development for the `http-rs` repository: a shallow embedding of
`src/http.rs`, `src/router.rs` and the response-selection logic of
`src/server.rs`, together with theorems settling the specification claims.

Modelling conventions:
* Rust `String`/`&str` and `Vec<u8>` values are modelled as `List Char`
  (named `Str` below).  The source manipulates byte buffers only by
  concatenation and length, and all inputs considered are ASCII, where byte
  sequences and character sequences coincide.
* `HashMap` is modelled as an association list with insert-overwrite
  (`insertA`) and first-match lookup (`findA`).  The single spot where the
  source iterates a `HashMap` (header serialization, the param/wildcard
  loops of `get_handler`) iterates the association list in order; the source
  order is unspecified, and no claim depends on it beyond membership.
* The buffered reader consumed by `HttpRequest::parse` is modelled as the
  list of lines successively returned by `read_line`, each including its
  terminator; the end of the list is EOF (`read_line` returning `n == 0`).
* Asynchronous handlers are modelled as pure functions `HttpRequest →
  HttpResponse` (resp. `HttpRequest → T → HttpResponse`); the `async`
  indirection is irrelevant to the routing and dispatch logic.
-/

/-- Rust strings / byte buffers, modelled as lists of characters. -/
abbrev Str := List Char

/-- Shorthand turning a Lean string literal into the `Str` model. -/
def chars (s : String) : Str := s.data

/-- Association-list lookup, modelling `HashMap::get`. -/
def findA {K V : Type} [DecidableEq K] : List (K × V) → K → Option V
  | [], _ => none
  | (k, v) :: tl, key => if k = key then some v else findA tl key

/-- Association-list insert with overwrite, modelling `HashMap::insert`. -/
def insertA {K V : Type} [DecidableEq K] : List (K × V) → K → V → List (K × V)
  | [], k, v => [(k, v)]
  | (k', v') :: tl, k, v =>
    if k' = k then (k, v) :: tl else (k', v') :: insertA tl k v

/-- Model of Rust `str::split(c)`: splits on every occurrence of `c`,
keeping empty pieces (so the result is always non-empty). -/
def splitOnChar (c : Char) : Str → List Str
  | [] => [[]]
  | a :: tl =>
    if a = c then [] :: splitOnChar c tl
    else
      match splitOnChar c tl with
      | [] => [[a]]
      | s :: ss => (a :: s) :: ss

/-- Model of `Vec<&str>::join(sep)` / `str::split` inversion. -/
def joinSep (c : Char) : List Str → Str
  | [] => []
  | [s] => s
  | s :: tl => s ++ c :: joinSep c tl

/-- Model of Rust `str::trim` (ASCII whitespace suffices for our inputs). -/
def trimStr (s : Str) : Str :=
  ((s.dropWhile Char.isWhitespace).reverse.dropWhile Char.isWhitespace).reverse

/-- Model of `str::parse::<usize>`: optional leading `+`, then at least one
digit (overflow is ignored; no claim involves lengths near `usize::MAX`). -/
def parseNat (s : Str) : Option Nat :=
  let t := match s with
    | '+' :: tl => tl
    | _ => s
  if t = [] ∨ ¬ t.all Char.isDigit then none
  else some (t.foldl (fun n c => n * 10 + (c.toNat - '0'.toNat)) 0)

/-- `HttpMethod` from `src/http.rs`. -/
inductive HttpMethod where
  | Get | Head | Post | Put | Delete | Connect | Options | Trace | Patch
  deriving DecidableEq, Repr

instance : Inhabited HttpMethod := ⟨.Get⟩

/-- `HttpMethod::from` from `src/http.rs` (named `fromStr` because `from` is
a Lean keyword). -/
def HttpMethod.fromStr (s : Str) : Option HttpMethod :=
  if s = chars "GET" then some .Get
  else if s = chars "HEAD" then some .Head
  else if s = chars "POST" then some .Post
  else if s = chars "PUT" then some .Put
  else if s = chars "DELETE" then some .Delete
  else if s = chars "CONNECT" then some .Connect
  else if s = chars "OPTIONS" then some .Options
  else if s = chars "TRACE" then some .Trace
  else if s = chars "PATCH" then some .Patch
  else none

/-- `HttpRequest` from `src/http.rs`. -/
structure HttpRequest where
  method : HttpMethod := .Get
  path : Str := []
  version : Str := []
  headers : List (Str × Str) := []
  query_params : List (Str × Option Str) := []
  params : List (Str × Str) := []
  body : Str := []
  deriving DecidableEq, Repr

instance : Inhabited HttpRequest := ⟨{}⟩

/-- `HttpResponse` from `src/http.rs`. -/
structure HttpResponse where
  version : Str := []
  status_code : Nat := 0
  status_text : Str := []
  headers : List (Str × Str) := []
  body : Str := []
  deriving DecidableEq, Repr

/-- `HttpResponse::new`. -/
def HttpResponse.new (version : Str) (status_code : Nat) (status_text : Str) :
    HttpResponse :=
  { version, status_code, status_text, headers := [], body := [] }

/-- `HttpResponse::insert_header`. -/
def HttpResponse.insert_header (r : HttpResponse) (key value : Str) :
    HttpResponse :=
  { r with headers := insertA r.headers key value }

/-- `HttpResponse::set_body`. -/
def HttpResponse.set_body (r : HttpResponse) (body : Str) : HttpResponse :=
  { r with body := body }

/-- The status line built by `HttpResponse::get_bytes`. -/
def HttpResponse.status_line (r : HttpResponse) : Str :=
  r.version ++ [' '] ++ (toString r.status_code).data ++ [' '] ++ r.status_text

/-- CRLF. -/
def crlf : Str := ['\r', '\n']

/-- `HttpResponse::get_bytes`, from `src/http.rs`.  It returns the serialized
bytes together with the response as it is left behind: `response.append(&mut
self.body)` moves the body out, leaving `self.body` empty. -/
def HttpResponse.get_bytes (r : HttpResponse) : Str × HttpResponse :=
  let length := r.body.length
  let response :=
    r.status_line ++ crlf ++ chars "Content-Length: " ++
      (toString length).data ++ crlf
  let response :=
    r.headers.foldl (fun acc kv => acc ++ kv.1 ++ chars ": " ++ kv.2 ++ crlf)
      response
  let response := response ++ crlf
  (response ++ r.body, { r with body := [] })

/-- The header block emitted by `get_bytes`, viewed as a list of lines
(status line, automatic `Content-Length` line, then one line per stored
header, in iteration order). -/
def HttpResponse.headerLines (r : HttpResponse) : List Str :=
  r.status_line :: (chars "Content-Length: " ++ (toString r.body.length).data)
    :: r.headers.map (fun kv => kv.1 ++ chars ": " ++ kv.2)

/-- `parse_query_params` inner loop from `src/http.rs`: each element was
split on `=`; zero parts or more than two parts abort with `None`
(`param.len() == 0 || param.len() > 2`), one part maps the trimmed key to
no value, two parts map it to the trimmed value. -/
def queryLoop : List (List Str) → List (Str × Option Str) →
    Option (List (Str × Option Str))
  | [], acc => some acc
  | p :: tl, acc =>
    match p with
    | [k] => queryLoop tl (insertA acc (trimStr k) none)
    | [k, v] => queryLoop tl (insertA acc (trimStr k) (some (trimStr v)))
    | _ => none

/-- `parse_query_params` from `src/http.rs`. -/
def parse_query_params (params : Str) : Option (List (Str × Option Str)) :=
  queryLoop ((splitOnChar '&' params).map (splitOnChar '=')) []

/-- Outcome of the header loop of `HttpRequest::parse`:
`read_line` returning `0` makes the whole parse return `Ok(default)`;
an empty (trimmed) line breaks out with the headers and remaining stream;
a line without `:` is an error. -/
inductive HeaderRes where
  | eof
  | fail (msg : String)
  | done (headers : List (Str × Str)) (rest : List Str)
  deriving Repr

/-- The header loop of `HttpRequest::parse` (`src/http.rs` lines 158-180).
Each line is trimmed; the part before the first `:` is the trimmed key, the
part after it the trimmed value. -/
def parseHeaderLoop : List Str → List (Str × Str) → HeaderRes
  | [], _ => .eof
  | line :: rest, acc =>
    let t := trimStr line
    if t = [] then .done acc rest
    else
      match splitOnChar ':' t with
      | [] => .fail "invalid header"
      | [_] => .fail "invalid header"
      | k :: ps =>
        parseHeaderLoop rest (insertA acc (trimStr k) (trimStr (joinSep ':' ps)))

/-- The body loop of `HttpRequest::parse` (`src/http.rs` lines 190-204):
while the accumulated body is shorter than `Content-Length`, read a line
(EOF breaks) and append its raw bytes, terminator included. -/
def bodyLoop (cl : Nat) : List Str → Str → Str
  | lines, body =>
    if cl ≤ body.length then body
    else
      match lines with
      | [] => body
      | line :: rest => bodyLoop cl rest (body ++ line)

/-- The portion of `HttpRequest::parse` after the request line has been
processed (split out so that theorems can reason about the header and body
phases with a symbolic stream): the header loop, then — only when a
`Content-Length` header is present — one line read and discarded
(`src/http.rs` lines 187-188, modelled by `.tail`) followed by the body
loop. -/
def parseRest (method : HttpMethod) (path version : Str)
    (query_params : List (Str × Option Str)) (rest : List Str) :
    Except String HttpRequest :=
  match parseHeaderLoop rest [] with
  | .eof => .ok {}
  | .fail e => .error e
  | .done headers rest2 =>
    match findA headers (chars "Content-Length") with
    | none =>
      .ok { method, path, version, headers, query_params,
            params := [], body := [] }
    | some cl =>
      match parseNat cl with
      | none => .error "invalid Content-Length"
      | some content_length =>
        let rest3 := rest2.tail
        let body := bodyLoop content_length rest3 []
        .ok { method, path, version, headers, query_params,
              params := [], body }

/-- `HttpRequest::parse` from `src/http.rs`, over the stream of lines the
buffered reader yields. -/
def HttpRequest.parse (stream : List Str) : Except String HttpRequest :=
  match stream with
  | [] => .ok {}
  | line :: rest =>
    let request_line := splitOnChar ' ' (trimStr line)
    match request_line with
    | [m, u, v] =>
      match HttpMethod.fromStr m with
      | none => .error "invalid method"
      | some method =>
        let uri := splitOnChar '?' u
        if 2 < uri.length ∨ uri.length = 0 then .error "Invalid uri"
        else
          let path := uri.headD []
          let qp := if uri.length = 2 then parse_query_params (uri.getD 1 [])
                    else some []
          match qp with
          | none => .error "invalid query params"
          | some query_params => parseRest method path v query_params rest
    | _ => .error "request line must be made up of 3 components"

/-- `RouterItem` from `src/router.rs`. -/
inductive RouterItem where
  | Static (s : Str)
  | Param (s : Str)
  | Wildcard
  deriving DecidableEq, Repr

/-- `str::strip_prefix(':')` as used by the router. -/
def stripColon : Str → Option Str
  | ':' :: tl => some tl
  | _ => none

/-- `RouterNode` from `src/router.rs`, generic in the handler payload `H`
(the source instantiates it with `Handler<T>`; keeping the payload abstract
lets theorems use distinguishable markers). -/
inductive RouterNode (H : Type) where
  | mk (handlers : List (HttpMethod × H)) (next : List (RouterItem × RouterNode H))

/-- The `handlers` field of a `RouterNode`. -/
def RouterNode.handlers {H : Type} : RouterNode H → List (HttpMethod × H)
  | .mk hs _ => hs

/-- The `next` field of a `RouterNode`. -/
def RouterNode.next {H : Type} : RouterNode H → List (RouterItem × RouterNode H)
  | .mk _ n => n

/-- `RouterNode::new`. -/
def RouterNode.new {H : Type} : RouterNode H := .mk [] []

/-- `RouterNode::lookup` (`src/router.rs` lines 75-83): Static child for the
segment, else (only when the segment itself starts with `:`) the Param child
of that name, else the Wildcard child. -/
def RouterNode.lookup {H : Type} (node : RouterNode H) (id : Str) :
    Option (RouterNode H) :=
  ((findA node.next (.Static id)).orElse (fun _ =>
    match stripColon id with
    | some pid => findA node.next (.Param pid)
    | none => none)).orElse (fun _ => findA node.next .Wildcard)

/-- `RouterNode::insert_handler` (`src/router.rs` lines 85-120).  When the
current segment is `*`, the handler is installed directly in the Wildcard
child's handler map and the remaining segments are dropped. -/
def RouterNode.insert_handler {H : Type} (node : RouterNode H)
    (method : HttpMethod) (path : List Str) (f : H) : RouterNode H :=
  match path with
  | [] => .mk (insertA node.handlers method f) node.next
  | seg :: rest =>
    let item : RouterItem :=
      match stripColon seg with
      | some p => .Param p
      | none => if seg = chars "*" then .Wildcard else .Static seg
    let child := (findA node.next item).getD .new
    let child' :=
      if item = RouterItem.Wildcard then
        RouterNode.mk (insertA child.handlers method f) child.next
      else
        child.insert_handler method rest f
    .mk node.handlers (insertA node.next item child')

/-- `RouterNode::get_handler` (`src/router.rs` lines 122-161).  Bound
parameters are threaded through the return value: the source inserts into
`req.params` exactly on the successful branch. -/
def RouterNode.get_handler {H : Type} (node : RouterNode H)
    (method : HttpMethod) (path : List Str) (params : List (Str × Str)) :
    Option (H × List (Str × Str)) :=
  match path with
  | [] => (findA node.handlers method).map (fun h => (h, params))
  | seg :: rest =>
    let b1 :=
      match node.lookup seg with
      | some child => child.get_handler method rest params
      | none => none
    match b1 with
    | some r => some r
    | none =>
      match node.next.findSome? (fun e =>
        match e.1 with
        | RouterItem.Param name =>
          (e.2.get_handler method rest params).map
            (fun hp => (hp.1, insertA hp.2 name seg))
        | _ => none) with
      | some r => some r
      | none =>
        node.next.findSome? (fun e =>
          match e.1 with
          | RouterItem.Wildcard =>
            (findA e.2.handlers method).map
              (fun h => (h, insertA params (chars "*") (joinSep '/' rest)))
          | _ => none)

/-- The pass over Param children in `get_handler` (the first `for` loop),
as a standalone function for stating priority properties. -/
def paramPass {H : Type} (entries : List (RouterItem × RouterNode H))
    (method : HttpMethod) (seg : Str) (rest : List Str)
    (params : List (Str × Str)) : Option (H × List (Str × Str)) :=
  entries.findSome? (fun e =>
    match e.1 with
    | RouterItem.Param name =>
      (e.2.get_handler method rest params).map
        (fun hp => (hp.1, insertA hp.2 name seg))
    | _ => none)

/-- The pass over Wildcard children in `get_handler` (the second `for`
loop), as a standalone function for stating priority properties. -/
def wildcardPass {H : Type} (entries : List (RouterItem × RouterNode H))
    (method : HttpMethod) (rest : List Str) (params : List (Str × Str)) :
    Option (H × List (Str × Str)) :=
  entries.findSome? (fun e =>
    match e.1 with
    | RouterItem.Wildcard =>
      (findA e.2.handlers method).map
        (fun h => (h, insertA params (chars "*") (joinSep '/' rest)))
    | _ => none)

/-- `Handler` from `src/router.rs`, with the async indirection removed. -/
inductive Handler (T : Type) where
  | WithData (f : HttpRequest → T → HttpResponse)
  | WithoutData (f : HttpRequest → HttpResponse)

/-- `Router` from `src/router.rs` (`Arc<T>` modelled as `T`). -/
structure Router (T : Type) where
  root_node : RouterNode (Handler T)
  user_data : Option T

/-- `Router::new`. -/
def Router.new {T : Type} (user_data : Option T) : Router T :=
  { root_node := .new, user_data }

/-- `Router::insert_route`. -/
def Router.insert_route {T : Type} (router : Router T) (method : HttpMethod)
    (path : Str) (f : Handler T) : Router T :=
  { router with
    root_node := router.root_node.insert_handler method (splitOnChar '/' path) f }

/-- `Router::get`, one instance of the `generate_http_methods!` macro (the
other eight methods only differ in the `HttpMethod` constant). -/
def Router.get {T : Type} (router : Router T) (path : Str)
    (f : HttpRequest → HttpResponse) : Router T :=
  router.insert_route .Get path (.WithoutData f)

/-- `Router::get_ctx`, one instance of
`generate_http_methods_with_user_data!`. -/
def Router.get_ctx {T : Type} (router : Router T) (path : Str)
    (f : HttpRequest → T → HttpResponse) : Router T :=
  router.insert_route .Get path (.WithData f)

/-- Modelled from the spec: `HttpResponse::internal_err` is referenced by
`Router::fetch` in `src/router.rs` but its definition is not among the
source files.  Spec §4.4: helper constructors such as `internal_error(message)`
"produce a response with the matching status code/reason and body set to the
message bytes", and §4.6 calls the route taken here "a default 500 response
with body \x22user data not set\x22". -/
def HttpResponse.internal_err (message : Str) : HttpResponse :=
  { version := chars "HTTP/1.1", status_code := 500,
    status_text := chars "Internal Server Error", headers := [],
    body := message }

/-- `Router::fetch` (`src/router.rs` lines 201-211): look the handler up
(mutating the request's params along the successful branch), then dispatch on
the handler flavour; a stateful handler without configured user data yields
`internal_err("user data not set")` without the handler being invoked. -/
def Router.fetch {T : Type} (router : Router T) (request : HttpRequest) :
    Option HttpResponse :=
  match router.root_node.get_handler request.method
      (splitOnChar '/' request.path) request.params with
  | none => none
  | some (h, params') =>
    let request' := { request with params := params' }
    some (match h with
      | .WithData f =>
        match router.user_data with
        | some ud => f request' ud
        | none => HttpResponse.internal_err (chars "user data not set")
      | .WithoutData f => f request')

/-- The response selection of `Server::handle_connection` (`src/server.rs`
lines 64-68): a missed route falls back to
`HttpResponse::new("HTTP/1.1", 401, "NOT FOUND")`. -/
def handle_connection_response {T : Type} (router : Router T)
    (request : HttpRequest) : HttpResponse :=
  (router.fetch request).getD
    (HttpResponse.new (chars "HTTP/1.1") 401 (chars "NOT FOUND"))

/-- A request as built by the router tests: given method and path, all other
fields default. -/
def mkReq (method : HttpMethod) (path : Str) : HttpRequest :=
  { method, path }

/-- A plain handler answering with a fixed body, as the repository's tests
use to observe which route fired. -/
def constHandler (body : Str) : HttpRequest → HttpResponse :=
  fun _ => { HttpResponse.new (chars "HTTP/1.1") 200 (chars "OK") with
             body := body }

/-- A plain handler echoing the bound `*` parameter (or `NONE`). -/
def starEchoHandler : HttpRequest → HttpResponse :=
  fun req =>
    { HttpResponse.new (chars "HTTP/1.1") 200 (chars "OK") with
      body := (findA req.params (chars "*")).getD (chars "NONE") }

/-- The header block rendered back into the byte stream: each line followed
by CRLF. -/
def renderLines (ls : List Str) : Str := (ls.map (fun l => l ++ crlf)).flatten

/-- The wildcard leaf of the `/static/*` trie. -/
def wStar : RouterNode Nat := .mk [(.Get, 0)] []

/-- The `static` node of the `/static/*` trie. -/
def n2Star : RouterNode Nat := .mk [] [(.Wildcard, wStar)]

/-- The root child (empty leading segment) of the `/static/*` trie. -/
def n1Star : RouterNode Nat := .mk [] [(.Static (chars "static"), n2Star)]

/-- The trie produced by registering GET `/static/*` (handler marker 0). -/
def staticStarNode : RouterNode Nat :=
  RouterNode.new.insert_handler .Get (splitOnChar '/' (chars "/static/*")) 0

/-- The `/user/admin` leaf (handler marker 1). -/
def nAdmin : RouterNode Nat := .mk [(.Get, 1)] []

/-- The `/user/:id` leaf (handler marker 2). -/
def nId : RouterNode Nat := .mk [(.Get, 2)] []

/-- The `user` node with a Static "admin" child and a Param "id" child. -/
def nUser : RouterNode Nat :=
  .mk [] [(.Static (chars "admin"), nAdmin), (.Param (chars "id"), nId)]

/-- The root child (empty leading segment) above `nUser`. -/
def n1User : RouterNode Nat := .mk [] [(.Static (chars "user"), nUser)]

/-- The trie produced by registering GET `/user/admin` (marker 1) and then
GET `/user/:id` (marker 2). -/
def userNode : RouterNode Nat :=
  (RouterNode.new.insert_handler .Get
      (splitOnChar '/' (chars "/user/admin")) 1).insert_handler .Get
    (splitOnChar '/' (chars "/user/:id")) 2

-- sanity checks against the repository's own tests
example :
    HttpRequest.parse
      [chars "GET /index.html HTTP/1.1\r\n", chars "Host: 127.0.0.1:7878\r\n",
       chars "Connection: keep-alive\r\n", chars "\r\n", chars "\r\n"] =
    .ok { method := .Get, path := chars "/index.html",
          version := chars "HTTP/1.1",
          headers := [(chars "Host", chars "127.0.0.1:7878"),
                      (chars "Connection", chars "keep-alive")],
          query_params := [], params := [], body := [] } := by
  rfl

example :
    HttpRequest.parse
      [chars "POST /api/save HTTP/1.1\r\n", chars "Content-Type: text/plain\r\n",
       chars "Content-Length: 11\r\n", chars "\r\n", chars "\r\n",
       chars "hello world"] =
    .ok { method := .Post, path := chars "/api/save",
          version := chars "HTTP/1.1",
          headers := [(chars "Content-Type", chars "text/plain"),
                      (chars "Content-Length", chars "11")],
          query_params := [], params := [], body := chars "hello world" } := by
  rfl

example :
    parse_query_params (chars "query=rust&verbose&mode=") =
    some [(chars "query", some (chars "rust")), (chars "verbose", none),
          (chars "mode", some [])] := by
  rfl

-- sanity checks against the repository's own router tests
example :
    ((Router.new (T := Unit) none
        |>.get (chars "/hello/world") (constHandler (chars "static_match"))
      ).fetch (mkReq .Get (chars "/hello/world"))).map HttpResponse.body =
    some (chars "static_match") := by
  rfl

example :
    ((Router.new (T := Unit) none
        |>.get (chars "/hello/world") (constHandler (chars "static_match"))
      ).fetch (mkReq .Get (chars "/not/found"))) = none := by
  rfl

example :
    ((Router.new (T := Unit) none
        |>.get (chars "/user/:id") (constHandler (chars "user_profile"))
        |>.get (chars "/user/:id/settings") (constHandler (chars "user_settings"))
        |>.get (chars "/user/admin") (constHandler (chars "admin_panel"))
      ).fetch (mkReq .Get (chars "/user/admin"))).map HttpResponse.body =
    some (chars "admin_panel") := by
  rfl

example :
    ((Router.new (T := Unit) none
        |>.get (chars "/static/*") (constHandler (chars "static_file"))
      ).fetch (mkReq .Get (chars "/static/css/theme/dark.css"))).map
      HttpResponse.body =
    some (chars "static_file") := by
  rfl

theorem headers_foldl (hs : List (Str × Str)) (init : Str) :
    hs.foldl (fun acc kv => acc ++ kv.1 ++ chars ": " ++ kv.2 ++ crlf) init =
      init ++ (hs.map (fun kv => kv.1 ++ chars ": " ++ kv.2 ++ crlf)).flatten := by
  induction hs generalizing init with
  | nil => simp
  | cons kv tl ih =>
    rw [List.foldl_cons, ih, List.map_cons, List.flatten_cons]
    simp [List.append_assoc]

theorem get_bytes_fst (r : HttpResponse) :
    r.get_bytes.1 = renderLines r.headerLines ++ crlf ++ r.body := by
  have h : r.get_bytes.1 =
      (r.headers.foldl (fun acc kv => acc ++ kv.1 ++ chars ": " ++ kv.2 ++ crlf)
        (r.status_line ++ crlf ++ chars "Content-Length: " ++
          (toString r.body.length).data ++ crlf)) ++ crlf ++ r.body := rfl
  have hmap : ((fun l => l ++ crlf) ∘ fun kv : Str × Str =>
      kv.1 ++ (chars ": " ++ kv.2)) =
      fun kv : Str × Str => kv.1 ++ (chars ": " ++ (kv.2 ++ crlf)) := by
    funext kv
    simp [Function.comp, List.append_assoc]
  rw [h, headers_foldl]
  unfold renderLines HttpResponse.headerLines
  simp only [List.map_cons, List.map_map, List.flatten_cons, List.append_assoc]
  rw [hmap]

/-- C10: `get_bytes` moves the body out of the response: afterwards the
stored body is empty, so a second serialization of the same response emits
`Content-Length: 0` and no body bytes after the blank line — serialization
is not idempotent. -/
theorem get_bytes_moves_body_out (r : HttpResponse) :
    r.get_bytes.2.body = [] ∧
    r.get_bytes.1 = renderLines r.headerLines ++ crlf ++ r.body ∧
    r.get_bytes.2.get_bytes.1 = renderLines r.get_bytes.2.headerLines ++ crlf ∧
    r.get_bytes.2.headerLines.getD 1 [] = chars "Content-Length: 0" := by
  have hb : r.get_bytes.2.body = [] := rfl
  refine ⟨hb, get_bytes_fst r, ?_, ?_⟩
  · have h := get_bytes_fst r.get_bytes.2
    rw [hb] at h
    simpa using h
  · have h4 : ∀ (a b : Str) (l : List Str), (a :: b :: l).getD 1 [] = b :=
      fun a b l => rfl
    show ({ r with body := [] } : HttpResponse).headerLines.getD 1 [] =
      chars "Content-Length: 0"
    unfold HttpResponse.headerLines
    rw [h4]
    show chars "Content-Length: " ++ (toString (0 : Nat)).data =
      chars "Content-Length: 0"
    decide

theorem cl_prefix_of_append (x : Str) :
    (chars "Content-Length:").isPrefixOf (chars "Content-Length: " ++ x) =
      true := by
  rw [List.isPrefixOf_iff_prefix,
      show chars "Content-Length: " = chars "Content-Length:" ++ [' '] by decide,
      List.append_assoc]
  exact List.prefix_append _ _

/-- C6 counterexample: on a response whose user has inserted their own
`Content-Length` header, the serialized output contains two lines beginning
`Content-Length:` (lines obtained by splitting the output at each newline),
refuting "exactly one". -/
theorem duplicate_content_length_counterexample :
    (splitOnChar '\n'
        ((((HttpResponse.new (chars "HTTP/1.1") 200 (chars "OK")).insert_header
            (chars "Content-Length") (chars "999")).set_body
            (chars "ab")).get_bytes.1)).countP
      (fun l => (chars "Content-Length:").isPrefixOf l) = 2 := by decide

/-- C6 amended: for every response whose user headers render no line
beginning `Content-Length:` (and whose status line does not begin with it),
the emitted header block contains exactly one `Content-Length:` line, it is
the first line after the status line, and its value is the byte length of
the body; the serialized output is that header block, the blank separator
and the body.  (A user-inserted `Content-Length` header is emitted in
addition to the automatic one, as the counterexample shows.) -/
theorem content_length_line_unique (r : HttpResponse)
    (hstatus : (chars "Content-Length:").isPrefixOf r.status_line = false)
    (hheaders : ∀ kv ∈ r.headers,
      (chars "Content-Length:").isPrefixOf (kv.1 ++ chars ": " ++ kv.2) =
        false) :
    r.headerLines.countP (fun l => (chars "Content-Length:").isPrefixOf l) =
      1 ∧
    r.headerLines.getD 1 [] =
      chars "Content-Length: " ++ (toString r.body.length).data ∧
    r.get_bytes.1 = renderLines r.headerLines ++ crlf ++ r.body := by
  refine ⟨?_, rfl, get_bytes_fst r⟩
  have hcl := cl_prefix_of_append ((toString r.body.length).data)
  have h0 : List.countP (fun l => (chars "Content-Length:").isPrefixOf l)
      (r.headers.map (fun kv => kv.1 ++ chars ": " ++ kv.2)) = 0 := by
    rw [List.countP_eq_zero]
    intro a ha
    obtain ⟨kv, hkv, rfl⟩ := List.mem_map.mp ha
    intro hcon
    rw [hheaders kv hkv] at hcon
    exact Bool.noConfusion hcon
  unfold HttpResponse.headerLines
  rw [List.countP_cons, List.countP_cons, h0]
  simp [hcl, hstatus]

/-- C6 witness: a concrete response without a user `Content-Length` header
satisfies the hypotheses and has exactly one `Content-Length:` line. -/
theorem content_length_line_unique_witness :
    ((((HttpResponse.new (chars "HTTP/1.1") 200 (chars "OK")).insert_header
        (chars "Content-Type") (chars "text/html")).set_body
        (chars "ab")).headerLines).countP
      (fun l => (chars "Content-Length:").isPrefixOf l) = 1 :=
  (content_length_line_unique _ (by decide) (by decide)).1

/-- C5 counterexample: on a route miss the dispatcher's fallback response
has status code 401 (not 404) and an empty body (not "route not found"). -/
theorem route_miss_counterexample :
    handle_connection_response (Router.new (T := Unit) none)
        (mkReq .Get (chars "/nope")) =
      { version := chars "HTTP/1.1", status_code := 401,
        status_text := chars "NOT FOUND", headers := [], body := [] } ∧
    (handle_connection_response (Router.new (T := Unit) none)
        (mkReq .Get (chars "/nope"))).status_code ≠ 404 ∧
    (handle_connection_response (Router.new (T := Unit) none)
        (mkReq .Get (chars "/nope"))).body ≠ chars "route not found" := by
  refine ⟨rfl, by decide, by decide⟩

/-- C5 amended: for every request for which the router finds no handler for
the request's method and path, the dispatcher falls back to
`HttpResponse::new("HTTP/1.1", 401, "NOT FOUND")`: status code 401, reason
phrase "NOT FOUND", no headers and an empty body. -/
theorem route_miss_returns_401 {T : Type} (router : Router T)
    (request : HttpRequest)
    (h : router.root_node.get_handler request.method
      (splitOnChar '/' request.path) request.params = none) :
    handle_connection_response router request =
      HttpResponse.new (chars "HTTP/1.1") 401 (chars "NOT FOUND") := by
  unfold handle_connection_response Router.fetch
  rw [h]
  rfl

/-- C5 witness: a concrete route miss hits the 401 fallback. -/
theorem route_miss_returns_401_witness :
    handle_connection_response (Router.new (T := Unit) none)
        (mkReq .Get (chars "/missing")) =
      HttpResponse.new (chars "HTTP/1.1") 401 (chars "NOT FOUND") :=
  route_miss_returns_401 _ _ rfl

/-- C9: for every request resolving (with any parameter bindings) to a
handler registered as requiring shared user-data, on a router whose
user-data is `None` the dispatcher returns the 500 response with body
"user data not set"; the result does not depend on the handler function
`f`, which is therefore not invoked. -/
theorem missing_user_data_returns_500 {T : Type} (router : Router T)
    (request : HttpRequest) (f : HttpRequest → T → HttpResponse)
    (params' : List (Str × Str))
    (hnone : router.user_data = none)
    (hfind : router.root_node.get_handler request.method
        (splitOnChar '/' request.path) request.params =
      some (Handler.WithData f, params')) :
    router.fetch request =
      some (HttpResponse.internal_err (chars "user data not set")) ∧
    (HttpResponse.internal_err (chars "user data not set")).status_code =
      500 ∧
    (HttpResponse.internal_err (chars "user data not set")).body =
      chars "user data not set" := by
  refine ⟨?_, rfl, rfl⟩
  unfold Router.fetch
  rw [hfind, hnone]

/-- C9 witness: a concrete stateful route on a router without user data. -/
theorem missing_user_data_returns_500_witness :
    ((Router.new (T := Nat) none).get_ctx (chars "/x")
        (fun _ _ => HttpResponse.new (chars "HTTP/1.1") 200 (chars "OK"))).fetch
      (mkReq .Get (chars "/x")) =
      some (HttpResponse.internal_err (chars "user data not set")) :=
  (missing_user_data_returns_500
    ((Router.new (T := Nat) none).get_ctx (chars "/x")
      (fun _ _ => HttpResponse.new (chars "HTTP/1.1") 200 (chars "OK")))
    (mkReq .Get (chars "/x"))
    (fun _ _ => HttpResponse.new (chars "HTTP/1.1") 200 (chars "OK"))
    [] rfl rfl).1

/-- C3: the decoder reads and discards one line between the header loop and
the body loop whenever a `Content-Length` header is present.  On the
standard framing (single empty line between headers and body) the first
body line "hello world" is discarded and the returned body is empty; with a
doubled empty line (as in the repository's own test) the body is
recovered.  This refutes the claim that no additional line is discarded. -/
theorem decoder_discards_first_body_line :
    HttpRequest.parse
      [chars "POST /api/save HTTP/1.1\r\n",
       chars "Content-Type: text/plain\r\n",
       chars "Content-Length: 11\r\n", chars "\r\n",
       chars "hello world"] =
    .ok { method := .Post, path := chars "/api/save",
          version := chars "HTTP/1.1",
          headers := [(chars "Content-Type", chars "text/plain"),
                      (chars "Content-Length", chars "11")],
          query_params := [], params := [], body := [] } ∧
    HttpRequest.parse
      [chars "POST /api/save HTTP/1.1\r\n",
       chars "Content-Type: text/plain\r\n",
       chars "Content-Length: 11\r\n", chars "\r\n", chars "\r\n",
       chars "hello world"] =
    .ok { method := .Post, path := chars "/api/save",
          version := chars "HTTP/1.1",
          headers := [(chars "Content-Type", chars "text/plain"),
                      (chars "Content-Length", chars "11")],
          query_params := [], params := [],
          body := chars "hello world" } :=
  ⟨rfl, rfl⟩

/-- C4 counterexample: a stream holding a request line and one complete
header line, hitting EOF before the empty line that terminates the header
block, parses successfully to the default (empty) request instead of
returning a `ParseError`. -/
theorem header_eof_counterexample :
    HttpRequest.parse
      [chars "GET / HTTP/1.1\r\n", chars "Host: example.com\r\n"] =
      .ok {} := rfl

theorem headerLoop_eof (lines : List Str)
    (h : ∀ l ∈ lines, trimStr l ≠ [] ∧
      2 ≤ (splitOnChar ':' (trimStr l)).length) :
    ∀ acc, parseHeaderLoop lines acc = .eof := by
  induction lines with
  | nil => intro acc; rfl
  | cons l tl ih =>
    intro acc
    obtain ⟨hne, hlen⟩ := h l (List.mem_cons_self l tl)
    have htl := fun x hx => h x (List.mem_cons_of_mem l hx)
    rcases hsp : splitOnChar ':' (trimStr l) with _ | ⟨k, _ | ⟨p, ps⟩⟩
    · rw [hsp] at hlen; norm_num at hlen
    · rw [hsp] at hlen; norm_num at hlen
    · show parseHeaderLoop (l :: tl) acc = .eof
      unfold parseHeaderLoop
      rw [if_neg hne, hsp]
      exact ih htl _

/-- C4 amended: a stream whose header block reaches EOF at a line boundary
(after a valid request line and any number of well-formed, non-empty header
lines, with no terminating empty line) makes the decoder return the
successfully parsed default (empty) request, not a `ParseError`. -/
theorem header_eof_returns_default_ok (hlines : List Str)
    (hne : hlines ≠ [])
    (hwf : ∀ l ∈ hlines, trimStr l ≠ [] ∧
      2 ≤ (splitOnChar ':' (trimStr l)).length) :
    HttpRequest.parse (chars "GET / HTTP/1.1\r\n" :: hlines) = .ok {} := by
  have h1 : HttpRequest.parse (chars "GET / HTTP/1.1\r\n" :: hlines) =
      parseRest .Get (chars "/") (chars "HTTP/1.1") [] hlines := rfl
  rw [h1]
  unfold parseRest
  rw [headerLoop_eof hlines hwf []]

/-- C4 witness: a concrete header stream hitting EOF before the empty
line. -/
theorem header_eof_returns_default_ok_witness :
    HttpRequest.parse
      [chars "GET / HTTP/1.1\r\n", chars "Accept: text/html\r\n"] =
      .ok {} :=
  header_eof_returns_default_ok [chars "Accept: text/html\r\n"]
    (by decide) (by decide)

theorem queryLoop_isSome (ps : List (List Str))
    (h : ∀ p ∈ ps, p.length = 1 ∨ p.length = 2) :
    ∀ acc, (queryLoop ps acc).isSome := by
  induction ps with
  | nil => intro acc; rfl
  | cons p tl ih =>
    intro acc
    have hp := h p (List.mem_cons_self p tl)
    have htl := fun x hx => h x (List.mem_cons_of_mem p hx)
    rcases p with _ | ⟨k, _ | ⟨v, _ | ⟨w, rest⟩⟩⟩
    · norm_num at hp
    · exact ih htl _
    · exact ih htl _
    · simp at hp

/-- C7 corrected behaviour: splitting never produces a zero-part element,
so an empty query element (empty string between two ampersands, or from a
leading/trailing ampersand, or the wholly empty query) is accepted as the
key `""` with no value, and the parser succeeds on every query string all
of whose elements split on `=` into at most two parts. -/
theorem query_empty_elements_accepted :
    (∀ raw : Str,
      (∀ e ∈ splitOnChar '&' raw,
        (splitOnChar '=' e).length = 1 ∨ (splitOnChar '=' e).length = 2) →
      (parse_query_params raw).isSome) ∧
    parse_query_params (chars "a&&b=c") =
      some [(chars "a", none), ([], none),
            (chars "b", some (chars "c"))] := by
  constructor
  · intro raw hwf
    unfold parse_query_params
    refine queryLoop_isSome _ ?_ []
    intro p hp
    obtain ⟨e, he, rfl⟩ := List.mem_map.mp hp
    exact hwf e he
  · rfl

/-- C7 witness: a query string with an empty element between two
ampersands parses successfully. -/
theorem query_empty_elements_accepted_witness :
    (parse_query_params (chars "x&&y")).isSome :=
  query_empty_elements_accepted.1 (chars "x&&y") (by decide)

/-- C7 counterexample: the wholly empty query string parses to the map
binding the key `""` to no value (not a parse error), and the decoder
accepts a request whose URI carries an empty query string. -/
theorem empty_query_element_counterexample :
    parse_query_params [] = some [([], none)] ∧
    HttpRequest.parse [chars "GET /x? HTTP/1.1\r\n", chars "\r\n"] =
      .ok { method := .Get, path := chars "/x",
            version := chars "HTTP/1.1", headers := [],
            query_params := [([], none)], params := [], body := [] } :=
  ⟨rfl, rfl⟩

/-- One-step unfolding of `get_handler` on a non-empty path, phrased with
the named loop passes. -/
theorem get_handler_cons {H : Type} (node : RouterNode H)
    (method : HttpMethod) (seg : Str) (rest : List Str)
    (params : List (Str × Str)) :
    node.get_handler method (seg :: rest) params =
      (match (match node.lookup seg with
              | some child => child.get_handler method rest params
              | none => none) with
       | some r => some r
       | none =>
         match paramPass node.next method seg rest params with
         | some r => some r
         | none => wildcardPass node.next method rest params) := rfl

theorem n2Star_lookup (s : Str) : n2Star.lookup s = some wStar := by
  unfold RouterNode.lookup n2Star RouterNode.next
  cases hsc : stripColon s
  · rfl
  · rfl

theorem wStar_fail (m : HttpMethod) (seg : Str) (rest : List Str)
    (ps : List (Str × Str)) : wStar.get_handler m (seg :: rest) ps = none := by
  rw [get_handler_cons]
  have hlk : wStar.lookup seg = none := by
    unfold RouterNode.lookup wStar RouterNode.next
    cases hsc : stripColon seg
    · rfl
    · rfl
  rw [hlk]
  rfl

theorem n2Star_long (s r0 : Str) (rest : List Str) (ps : List (Str × Str)) :
    n2Star.get_handler .Get (s :: r0 :: rest) ps =
      some (0, insertA ps (chars "*") (joinSep '/' (r0 :: rest))) := by
  rw [get_handler_cons]
  simp only [n2Star_lookup, wStar_fail]
  rfl

theorem n2Star_short (s : Str) (ps : List (Str × Str)) :
    n2Star.get_handler .Get [s] ps = some (0, ps) := by
  rw [get_handler_cons]
  simp only [n2Star_lookup]
  rfl

/-- C1 counterexample: with GET `/static/*` registered, matching GET
`/static/css/theme/dark.css` binds `*` to "theme/dark.css", not the claimed
"css/theme/dark.css" — the consumed segment is not part of the binding. -/
theorem wildcard_binding_counterexample :
    (((Router.new (T := Unit) none).get (chars "/static/*")
        starEchoHandler).fetch
      (mkReq .Get (chars "/static/css/theme/dark.css"))).map
      HttpResponse.body =
      some (chars "theme/dark.css") ∧
    chars "theme/dark.css" ≠ chars "css/theme/dark.css" :=
  ⟨rfl, by decide⟩

/-- C1 amended: with GET `/static/*` registered, a path with at least two
segments after `/static` reaches the Wildcard child, which consumes the
first of those segments and binds under the key `*` only the REMAINING
segments joined by `/` (the consumed segment is not included); a path with
exactly one segment after `/static` matches the wildcard through `lookup`
and makes no `*` binding at all. -/
theorem wildcard_binds_segments_after_consumed (s r0 : Str)
    (rest : List Str) :
    staticStarNode.get_handler .Get
        ([] :: chars "static" :: s :: r0 :: rest) [] =
      some (0, [(chars "*", joinSep '/' (r0 :: rest))]) ∧
    staticStarNode.get_handler .Get [[], chars "static", s] [] =
      some (0, []) := by
  have heq : staticStarNode =
      RouterNode.mk [] [(.Static [], n1Star)] := rfl
  have hlk1 : (RouterNode.mk ([] : List (HttpMethod × Nat))
      [(.Static [], n1Star)]).lookup [] = some n1Star := rfl
  have hlk2 : n1Star.lookup (chars "static") = some n2Star := rfl
  constructor
  · rw [heq, get_handler_cons]
    simp only [hlk1]
    have hstep : n1Star.get_handler .Get
        (chars "static" :: s :: r0 :: rest) [] =
        some (0, [(chars "*", joinSep '/' (r0 :: rest))]) := by
      rw [get_handler_cons]
      simp only [hlk2]
      have h2 := n2Star_long s r0 rest []
      simp only [h2]
      rfl
    simp only [hstep]
  · rw [heq, get_handler_cons]
    simp only [hlk1]
    have hstep : n1Star.get_handler .Get [chars "static", s] [] =
        some (0, []) := by
      rw [get_handler_cons]
      simp only [hlk2]
      have h2 := n2Star_short s []
      simp only [h2]
    simp only [hstep]

theorem userNode_eq : userNode = RouterNode.mk [] [(.Static [], n1User)] :=
  rfl

theorem nUser_param_result (s : Str) (hs : s ≠ chars "admin") :
    (nUser.get_handler .Get [s] []).map Prod.fst = some 2 := by
  rw [get_handler_cons]
  have hstatic : findA nUser.next (RouterItem.Static s) = none := by
    simp [nUser, RouterNode.next, findA, Ne.symm hs]
  cases hsc : stripColon s with
  | none =>
    have hlk : nUser.lookup s = none := by
      unfold RouterNode.lookup
      rw [hstatic, hsc]
      rfl
    simp only [hlk]
    rfl
  | some pid =>
    by_cases hpid : pid = chars "id"
    · have hlk : nUser.lookup s = some nId := by
        unfold RouterNode.lookup
        rw [hstatic, hsc, hpid]
        rfl
      simp only [hlk]
      rfl
    · have hp : findA nUser.next (RouterItem.Param pid) = none := by
        simp [nUser, RouterNode.next, findA, Ne.symm hpid]
      have hlk : nUser.lookup s = none := by
        unfold RouterNode.lookup
        rw [hstatic, hsc]
        simp only [hp]
        rfl
      simp only [hlk]
      rfl

/-- C2: the matcher's tie-break when a Static child matches the current
segment.  Conjunct 1: a matching Static child whose subtree succeeds is
preferred over everything else.  Conjunct 2: when the matching Static
child's subtree fails, the Param pass is consulted before the Wildcard
pass.  Conjuncts 3 and 4: with `/user/admin` (marker 1) and `/user/:id`
(marker 2) both registered for GET, GET `/user/admin` resolves to the
Static handler and GET `/user/s` for any other single segment `s` resolves
to the Param handler. -/
theorem static_beats_param_beats_wildcard :
    (∀ (H : Type) (node : RouterNode H) (method : HttpMethod) (seg : Str)
        (rest : List Str) (params : List (Str × Str)) (child : RouterNode H)
        (res : H × List (Str × Str)),
      findA node.next (.Static seg) = some child →
      child.get_handler method rest params = some res →
      node.get_handler method (seg :: rest) params = some res) ∧
    (∀ (H : Type) (node : RouterNode H) (method : HttpMethod) (seg : Str)
        (rest : List Str) (params : List (Str × Str)) (child : RouterNode H)
        (res : H × List (Str × Str)),
      findA node.next (.Static seg) = some child →
      child.get_handler method rest params = none →
      paramPass node.next method seg rest params = some res →
      node.get_handler method (seg :: rest) params = some res) ∧
    userNode.get_handler .Get [[], chars "user", chars "admin"] [] =
      some (1, []) ∧
    (∀ s : Str, s ≠ chars "admin" →
      (userNode.get_handler .Get [[], chars "user", s] []).map Prod.fst =
        some 2) := by
  refine ⟨?_, ?_, rfl, ?_⟩
  · intro H node method seg rest params child res hst hres
    have hlk : node.lookup seg = some child := by
      unfold RouterNode.lookup
      rw [hst]
      rfl
    rw [get_handler_cons]
    simp only [hlk, hres]
  · intro H node method seg rest params child res hst hfail hpp
    have hlk : node.lookup seg = some child := by
      unfold RouterNode.lookup
      rw [hst]
      rfl
    rw [get_handler_cons]
    simp only [hlk, hfail, hpp]
  · intro s hs
    have hinner := nUser_param_result s hs
    obtain ⟨res, hres, hfst⟩ := Option.map_eq_some'.mp hinner
    have h1 : userNode.get_handler .Get [[], chars "user", s] [] =
        some res := by
      rw [userNode_eq, get_handler_cons]
      have hlk1 : (RouterNode.mk ([] : List (HttpMethod × Nat))
          [(.Static [], n1User)]).lookup [] = some n1User := rfl
      simp only [hlk1]
      have hstep : n1User.get_handler .Get [chars "user", s] [] =
          some res := by
        rw [get_handler_cons]
        have hlk2 : n1User.lookup (chars "user") = some nUser := rfl
        simp only [hlk2, hres]
      simp only [hstep]
    rw [h1]
    simp [hfst]

/-- C2 witness: the concrete tie-break instances, obtained from the claim
theorem: GET `/user/admin` reaches the Static handler, GET `/user/jane`
the Param handler. -/
theorem static_beats_param_beats_wildcard_witness :
    userNode.get_handler .Get [[], chars "user", chars "admin"] [] =
      some (1, []) ∧
    (userNode.get_handler .Get [[], chars "user", chars "jane"] []).map
      Prod.fst = some 2 :=
  ⟨static_beats_param_beats_wildcard.2.2.1,
   static_beats_param_beats_wildcard.2.2.2 (chars "jane") (by decide)⟩

/-- C8 counterexample: registering GET `/a/*/more` does not reject the
pattern nor render the handler dead — the handler is invoked for GET
`/a/x/y`. -/
theorem wildcard_suffix_reachable_counterexample :
    (((Router.new (T := Unit) none).get (chars "/a/*/more")
        (constHandler (chars "h"))).fetch
      (mkReq .Get (chars "/a/x/y"))).map HttpResponse.body =
      some (chars "h") := rfl

/-- C8 amended: registration neither rejects segments after a `*` nor
creates dead handlers: `insert_handler` drops every segment after the first
`*`, binding the handler on the Wildcard node itself — registering
`pattern/*/more` is the same as registering `pattern/*`, and the handler is
reachable (GET `/a/*/more` answers GET `/a/x/y` with `*` bound to "y"). -/
theorem insert_truncates_at_wildcard :
    (∀ (H : Type) (node : RouterNode H) (method : HttpMethod) (f : H)
        (before after : List Str),
      node.insert_handler method (before ++ chars "*" :: after) f =
        node.insert_handler method (before ++ [chars "*"]) f) ∧
    (RouterNode.new.insert_handler .Get
        (splitOnChar '/' (chars "/a/*/more")) (5 : Nat)).get_handler .Get
      (splitOnChar '/' (chars "/a/x/y")) [] =
      some (5, [(chars "*", chars "y")]) := by
  constructor
  · intro H node method f before after
    induction before generalizing node with
    | nil => rfl
    | cons b tl ih =>
      show RouterNode.insert_handler node method
          (b :: (tl ++ chars "*" :: after)) f =
        RouterNode.insert_handler node method (b :: (tl ++ [chars "*"])) f
      simp only [RouterNode.insert_handler]
      rw [ih]
  · rfl
